import Mathlib

/-!
Verification of the core of mozilla/classify-client against its
natural-language specification.

The development shallowly embeds the decision path of the service:
  * `client_ip`      — src/utils.rs, `RequestClientIp::client_ip`
  * `path_ips`       — src/utils.rs, `PathIpsIter::next` (the X-Forwarded-For
                       state machine)
  * `locate`         — src/geoip.rs, `GeoIpActor::locate`
  * `get_country`    — src/endpoints/country.rs, `get_country`
  * `classify_client`— src/endpoints/classify.rs, `classify_client`
  * `keys_load`      — src/keys.rs, `load`

External collaborators (the actix HTTP layer, the maxminddb reader, serde,
the std IP parser, file I/O) are modelled as explicit inputs: the reader is a
function from addresses to lookup outcomes, file reads and JSON parses are
passed in as their results, and the client-supplied `key` query parameter is
passed as the already-extracted `Option String`.
-/

namespace ClassifyClient

/-! ### IP addresses and networks

Model of `std::net::IpAddr` and `ipnet::IpNet`. An address is its numeric
value (32-bit for v4, 128-bit for v6); a network is a base address together
with a prefix length. `IpNet.contains` holds when the two are in the same
family and agree on the first `prefixLen` bits, matching
`ipnet::IpNet::contains(&IpAddr)`, which returns `false` across families. -/

inductive IpAddr where
  | v4 (bits : Nat)
  | v6 (bits : Nat)
deriving DecidableEq, Repr

structure IpNet where
  isV6 : Bool
  addr : Nat
  prefixLen : Nat
deriving DecidableEq, Repr

def IpNet.contains (net : IpNet) (ip : IpAddr) : Bool :=
  match ip with
  | .v4 bits =>
      !net.isV6 && (bits / 2 ^ (32 - net.prefixLen) == net.addr / 2 ^ (32 - net.prefixLen))
  | .v6 bits =>
      net.isV6 && (bits / 2 ^ (128 - net.prefixLen) == net.addr / 2 ^ (128 - net.prefixLen))

/-- Abbreviation for a dotted-quad v4 address, e.g. `mkV4 1 2 3 4` is 1.2.3.4. -/
def mkV4 (a b c d : Nat) : IpAddr :=
  .v4 (((a * 256 + b) * 256 + c) * 256 + d)

/-! ### Client IP resolution (src/utils.rs, lines 22-31)

```rust
let is_trusted_ip = |ip: &IpAddr| trusted_proxy_list.iter().any(|range| range.contains(ip));
self.iter_path_ips()
    .skip_while(is_trusted_ip)
    .next()
    .ok_or_else(|| ClassifyError::new("Could not determine IP"))
```

The path-IP iterator is materialized as a list (`path_ips` below builds it);
`skip_while(..).next()` is `dropWhile` followed by taking the head. The
trusted-proxy configuration is taken as an already-parsed list of networks
(`settings.trusted_proxy_list()` parses config strings; parsing is outside
the claims). -/

def is_trusted_ip (trusted_proxy_list : List IpNet) (ip : IpAddr) : Bool :=
  trusted_proxy_list.any (fun range => range.contains ip)

def client_ip (trusted_proxy_list : List IpNet) (path_ips : List IpAddr) :
    Except String IpAddr :=
  match path_ips.dropWhile (is_trusted_ip trusted_proxy_list) with
  | [] => .error "Could not determine IP"
  | ip :: _ => .ok ip

/-! Helper lemmas about `client_ip`. -/

theorem dropWhile_append_of_all {α : Type} (p : α → Bool) (pre rest : List α)
    (h : pre.all p = true) : (pre ++ rest).dropWhile p = rest.dropWhile p := by
  induction pre with
  | nil => rfl
  | cons a l ih =>
    simp only [List.all_cons, Bool.and_eq_true] at h
    simp [List.dropWhile_cons, h.1, ih h.2]

/-- `client_ip` returns the first element of the trace that is not trusted,
and the fixed error when there is none: `skip_while p ∘ next` coincides with
`find?` on the negated predicate. -/
theorem client_ip_eq_find (T : List IpNet) (trace : List IpAddr) :
    client_ip T trace =
      match trace.find? (fun ip => !is_trusted_ip T ip) with
      | some ip => Except.ok ip
      | none => Except.error "Could not determine IP" := by
  induction trace with
  | nil => rfl
  | cons ip rest ih =>
    cases h : is_trusted_ip T ip with
    | true =>
      simpa [client_ip, List.dropWhile_cons, List.find?_cons, h] using ih
    | false =>
      simp [client_ip, List.dropWhile_cons, List.find?_cons, h]

/-- Claim C1: for every trusted-network configuration and every trace,
client-IP resolution returns the first element of the trace not contained in
any trusted range, and fails with the "could not determine IP" error when all
elements are trusted or the trace is empty; the scan is a strict prefix-skip,
so once the first non-trusted address is found, no later address affects the
result. -/
theorem claim_C1 (T : List IpNet) (trace : List IpAddr) :
    (client_ip T trace =
      match trace.find? (fun ip => !is_trusted_ip T ip) with
      | some ip => Except.ok ip
      | none => Except.error "Could not determine IP")
    ∧ (trace.all (is_trusted_ip T) = true →
        client_ip T trace = .error "Could not determine IP")
    ∧ (∀ pre x suf suf2, pre.all (is_trusted_ip T) = true →
        is_trusted_ip T x = false →
        client_ip T (pre ++ x :: suf) = .ok x ∧
        client_ip T (pre ++ x :: suf) = client_ip T (pre ++ x :: suf2)) := by
  refine ⟨client_ip_eq_find T trace, ?_, ?_⟩
  · intro hall
    unfold client_ip
    rw [List.dropWhile_eq_nil_iff.mpr]
    intro x hx
    exact (List.all_eq_true.mp hall x hx)
  · intro pre x suf suf2 hpre hx
    have h1 : client_ip T (pre ++ x :: suf) = .ok x := by
      unfold client_ip
      rw [dropWhile_append_of_all _ _ _ hpre, List.dropWhile_cons, hx]
      simp
    have h2 : client_ip T (pre ++ x :: suf2) = .ok x := by
      unfold client_ip
      rw [dropWhile_append_of_all _ _ _ hpre, List.dropWhile_cons, hx]
      simp
    exact ⟨h1, h1.trans h2.symm⟩

theorem claim_C1_witness :
    client_ip [⟨false, 0, 32⟩] [IpAddr.v4 0, mkV4 1 2 3 4, mkV4 5 6 7 8] = .ok (mkV4 1 2 3 4) := by
  have h := (claim_C1 [⟨false, 0, 32⟩] [IpAddr.v4 0, mkV4 1 2 3 4, mkV4 5 6 7 8]).2.2
      [IpAddr.v4 0] (mkV4 1 2 3 4) [mkV4 5 6 7 8] []
  exact (h (by decide) (by decide)).1

/-- Claim C2: when client-IP resolution produces an address, that address is
not contained in any configured trusted network range. -/
theorem claim_C2 (T : List IpNet) (trace : List IpAddr) (ip : IpAddr)
    (h : client_ip T trace = .ok ip) :
    ∀ net ∈ T, net.contains ip = false := by
  have hc := client_ip_eq_find T trace
  rw [h] at hc
  cases hf : trace.find? (fun x => !is_trusted_ip T x) with
  | none => rw [hf] at hc; exact absurd hc (by simp)
  | some y =>
    rw [hf] at hc
    have hy : ip = y := by
      simpa using hc
    subst hy
    have hfound := List.find?_some hf
    have : is_trusted_ip T ip = false := by
      simpa using hfound
    intro net hnet
    have := List.any_eq_false.mp this net hnet
    simpa using this

theorem claim_C2_witness :
    IpNet.contains ⟨false, 0, 32⟩ (mkV4 1 2 3 4) = false :=
  claim_C2 [⟨false, 0, 32⟩] [mkV4 1 2 3 4] (mkV4 1 2 3 4) rfl ⟨false, 0, 32⟩
    (List.mem_singleton.mpr rfl)

/-! ### The path-IP trace (src/utils.rs, lines 60-109)

`PathIpsIter` is a pull state machine: state `Peer` yields the connection
peer address when present and moves to `XForwardedFor 0`; state
`XForwardedFor idx_from_end` recomputes
`ips = header.split(',').map(|ip| ip.trim())`, and while
`idx_from_end < ips.len()` steps `idx_from_end` and yields
`ips[ips.len() - idx_from_end - 1].parse()` when the parse succeeds, looping
past parse failures; exhaustion (or a missing header) moves to `Done`.

`collect_xff` below is the list of everything the `XForwardedFor` states
yield, indexed by `remaining = ips.len() - idx_from_end` so that the
recursion is structural; the token taken at `remaining = r + 1` is
`ips[r] = ips[ips.len() - idx_from_end - 1]`. `path_ips` is the whole
iterator materialized: the peer contribution followed by the header
contribution.

String utilities (`split(',')`, `trim`, `str::parse::<IpAddr>`) are std-library
collaborators; they are modelled below on character lists. `trim` is modelled
on ASCII whitespace and the address parser handles dotted-quad IPv4 (the strict
form: decimal octets, no leading zeros, each at most 255). IPv6 text is not
modelled (no claim depends on it); the trace-shape theorem is stated for an
arbitrary token parser, so it covers the real parser as an instance. A header
whose bytes are not visible ASCII makes `to_str` fail and the header is
ignored; headers are modelled as the strings for which `to_str` succeeded. -/

def splitChars (sep : Char) : List Char → List (List Char)
  | [] => [[]]
  | c :: rest =>
    let r := splitChars sep rest
    if c == sep then [] :: r
    else
      match r with
      | t :: ts => (c :: t) :: ts
      | [] => [[c]]

def isRustWhitespace (c : Char) : Bool :=
  c == ' ' || c == '\t' || c == '\n' || c == '\r'

def trimChars (cs : List Char) : List Char :=
  ((cs.dropWhile isRustWhitespace).reverse.dropWhile isRustWhitespace).reverse

/-- Model of one dotted-quad component for `str::parse::<IpAddr>`: all
digits, no redundant leading zero, value at most 255. -/
def parseOctet (s : String) : Option Nat :=
  let cs := s.toList
  if cs.isEmpty then none
  else if !cs.all Char.isDigit then none
  else if 1 < cs.length && cs.headD '0' == '0' then none
  else
    let n := cs.foldl (fun acc c => acc * 10 + (c.toNat - 48)) 0
    if n ≤ 255 then some n else none

/-- Model of `str::parse::<IpAddr>` restricted to IPv4 dotted-quad text. -/
def parse_ip (s : String) : Option IpAddr :=
  match ((splitChars '.' s.toList).map List.asString).mapM parseOctet with
  | some [a, b, c, d] => some (IpAddr.v4 (((a * 256 + b) * 256 + c) * 256 + d))
  | _ => none

/-- `header.split(',').map(|ip| ip.trim()).collect()` from the
`XForwardedFor` state. -/
def headerTokens (header : String) : List String :=
  (splitChars ',' header.toList).map (fun cs => (trimChars cs).asString)

/-- Everything the `XForwardedFor` states yield, with `remaining` counting
the tokens not yet consumed (`remaining = ips.length - idx_from_end`). -/
def collect_xff (parse : String → Option IpAddr) (ips : List String) :
    Nat → List IpAddr
  | 0 => []
  | r + 1 =>
    match parse (ips.getD r "") with
    | some ip => ip :: collect_xff parse ips r
    | none => collect_xff parse ips r

/-- The materialized `PathIpsIter`: peer address first when present, then the
header tokens from last to first, parse failures dropped. -/
def path_ips (parse : String → Option IpAddr) (peer_addr : Option IpAddr)
    (x_forwarded_for : Option String) : List IpAddr :=
  (match peer_addr with
   | some p => [p]
   | none => []) ++
  (match x_forwarded_for with
   | some header => collect_xff parse (headerTokens header) (headerTokens header).length
   | none => [])

theorem collect_xff_eq_filterMap (parse : String → Option IpAddr)
    (ips : List String) (r : Nat) (h : r ≤ ips.length) :
    collect_xff parse ips r = ((ips.take r).reverse).filterMap parse := by
  induction r with
  | zero => simp [collect_xff]
  | succ n ih =>
    have hn : n < ips.length := Nat.lt_of_lt_of_le (Nat.lt_succ_self n) h
    have hg : ips.getD n "" = ips.get ⟨n, hn⟩ := by
      simp [List.getD_eq_getElem?_getD, List.getElem?_eq_getElem hn]
    have ht : (ips.take (n + 1)).reverse = ips.get ⟨n, hn⟩ :: (ips.take n).reverse := by
      rw [List.take_succ]
      simp [List.getElem?_eq_getElem hn]
    rw [ht]
    have ihn := ih (Nat.le_of_lt hn)
    simp only [collect_xff, hg, List.filterMap_cons]
    cases parse (ips.get ⟨n, hn⟩) with
    | none => simpa using ihn
    | some ip => simpa using ihn

/-- Claim C3: the trace is the peer address (when present) followed by the
comma-split, whitespace-trimmed header tokens in reverse header order with
unparseable tokens dropped — stated for every token parser, and evaluated on
the spec's two examples with the concrete IPv4 parser. -/
theorem claim_C3 :
    (∀ (parse : String → Option IpAddr) (peer : Option IpAddr) (header : String),
        path_ips parse peer (some header)
          = peer.toList ++ ((headerTokens header).reverse.filterMap parse))
    ∧ (∀ (parse : String → Option IpAddr) (peer : Option IpAddr),
        path_ips parse peer none = peer.toList)
    ∧ path_ips parse_ip none (some "1.2.3.4, 5.6.7.8, 9.10.11.12")
        = [mkV4 9 10 11 12, mkV4 5 6 7 8, mkV4 1 2 3 4]
    ∧ (∀ P : IpAddr, path_ips parse_ip (some P) (some "1.2.3.4, 5.6.7.8")
        = [P, mkV4 5 6 7 8, mkV4 1 2 3 4]) := by
  have hgen : ∀ (parse : String → Option IpAddr) (peer : Option IpAddr) (header : String),
      path_ips parse peer (some header)
        = peer.toList ++ ((headerTokens header).reverse.filterMap parse) := by
    intro parse peer header
    have hx : collect_xff parse (headerTokens header) (headerTokens header).length
        = (headerTokens header).reverse.filterMap parse := by
      rw [collect_xff_eq_filterMap parse _ _ (Nat.le_refl _), List.take_length]
    unfold path_ips
    cases peer <;> simp [hx, Option.toList]
  refine ⟨hgen, ?_, ?_, ?_⟩
  · intro parse peer
    unfold path_ips
    cases peer <;> simp
  · rw [hgen]
    decide
  · intro P
    rw [hgen]
    have : (headerTokens "1.2.3.4, 5.6.7.8").reverse.filterMap parse_ip
        = [mkV4 5 6 7 8, mkV4 1 2 3 4] := by decide
    simp [this, Option.toList]

/-! ### Geolocation lookup (src/geoip.rs, lines 76-104)

`GeoIpActor` holds `reader: Option<maxminddb::OwnedReader>` and a statsd
client. `locate` is:

```rust
self.reader
    .as_ref()
    .ok_or_else(|| ClassifyError::new("No geoip database available"))?
    .lookup(ip)
    .map(|country_info: Option<geoip2::Country>| {
        let iso_code = country_info.clone()
            .and_then(|country_info| country_info.country)
            .and_then(|country| country.iso_code);
        self.metrics.incr_with_tags("location")
            .with_tag("country", &iso_code.unwrap_or_else(|| "unknown".to_owned()))
            .send();
        country_info
    })
    .or_else(|err| match err {
        MaxMindDBError::AddressNotFoundError(_) => {
            self.metrics.incr_with_tags("location")
                .with_tag("country", "unknown").send();
            Ok(None)
        }
        _ => Err(err),
    })
    .map_err(|err| err.into())
```

The maxminddb reader is external; it is modelled as a function from addresses
to `MaxMindResult` (a decoded record option, an address-not-found error, or
any other database error). Metric sends are fire-and-forget side effects; the
model returns the list of metrics emitted by the call alongside the result. -/

structure CountryModel where
  iso_code : Option String
  names : Option (List (String × String))
deriving DecidableEq, Repr

structure CountryRecord where
  country : Option CountryModel
deriving DecidableEq, Repr

inductive MaxMindResult where
  | found (countryInfo : Option CountryRecord)
  | addressNotFound (msg : String)
  | databaseError (msg : String)
deriving DecidableEq, Repr

structure Metric where
  name : String
  tagKey : String
  tagValue : String
deriving DecidableEq, Repr

def locate (reader : Option (IpAddr → MaxMindResult)) (ip : IpAddr) :
    Except String (Option CountryRecord) × List Metric :=
  match reader with
  | none => (.error "No geoip database available", [])
  | some lookup =>
    match lookup ip with
    | .found countryInfo =>
        let iso_code := (countryInfo.bind CountryRecord.country).bind CountryModel.iso_code
        (.ok countryInfo, [⟨"location", "country", iso_code.getD "unknown"⟩])
    | .addressNotFound _ => (.ok none, [⟨"location", "country", "unknown"⟩])
    | .databaseError msg => (.error msg, [])

/-- Claim C5: with no database loaded, `locate` fails with the
configuration-error condition; an address-not-found outcome is `Ok(None)`,
not an error; a decoded record is returned as-is; and any other
database-level failure propagates as an error. -/
theorem claim_C5 (db : IpAddr → MaxMindResult) (ip : IpAddr) :
    ((locate none ip).1 = .error "No geoip database available")
    ∧ (∀ msg, db ip = .addressNotFound msg → (locate (some db) ip).1 = .ok none)
    ∧ (∀ countryInfo, db ip = .found countryInfo →
        (locate (some db) ip).1 = .ok countryInfo)
    ∧ (∀ msg, db ip = .databaseError msg → (locate (some db) ip).1 = .error msg)
    ∧ (∀ msg, db ip = .addressNotFound msg →
        (locate (some db) ip).1 ≠ (locate none ip).1) := by
  refine ⟨rfl, ?_, ?_, ?_, ?_⟩
  · intro msg h
    simp [locate, h]
  · intro countryInfo h
    simp [locate, h]
  · intro msg h
    simp [locate, h]
  · intro msg h
    simp [locate, h]

theorem claim_C5_witness :
    (locate none (mkV4 1 2 3 4)).1 = .error "No geoip database available"
    ∧ (locate (some fun _ => MaxMindResult.addressNotFound "x") (mkV4 1 2 3 4)).1 = .ok none
    ∧ (locate (some fun _ => MaxMindResult.databaseError "corrupt") (mkV4 1 2 3 4)).1
        = .error "corrupt"
    ∧ (locate (some fun _ => MaxMindResult.addressNotFound "x") (mkV4 1 2 3 4)).1
        ≠ (locate none (mkV4 1 2 3 4)).1 :=
  ⟨(claim_C5 (fun _ => MaxMindResult.found none) (mkV4 1 2 3 4)).1,
   (claim_C5 (fun _ => MaxMindResult.addressNotFound "x") (mkV4 1 2 3 4)).2.1 "x" rfl,
   (claim_C5 (fun _ => MaxMindResult.databaseError "corrupt") (mkV4 1 2 3 4)).2.2.2.1
     "corrupt" rfl,
   (claim_C5 (fun _ => MaxMindResult.addressNotFound "x") (mkV4 1 2 3 4)).2.2.2.2 "x" rfl⟩

/-- Counterexample to claim C7 as stated: a call that reaches the database
but fails with a database-level error other than address-not-found emits no
`location` metric at all, not exactly one. -/
theorem claim_C7_counterexample :
    ¬ ((locate (some fun _ => MaxMindResult.databaseError "InvalidDatabaseError")
        (mkV4 1 2 3 4)).2.length = 1) := by
  decide

/-- Claim C7 (amended): every call that reaches the database and does not end
in a database-level error emits the `location` counter exactly once, after
the lookup completes, tagged with the record's ISO code when present and with
"unknown" when no record was found or the record has no code; both the
database-unavailable path and the database-error path emit no metric. -/
theorem claim_C7 (db : IpAddr → MaxMindResult) (ip : IpAddr) :
    ((locate none ip).2 = [])
    ∧ (∀ countryInfo, db ip = .found countryInfo →
        (locate (some db) ip).2
          = [⟨"location", "country",
              (((countryInfo.bind CountryRecord.country).bind CountryModel.iso_code).getD
                "unknown")⟩])
    ∧ (∀ msg, db ip = .addressNotFound msg →
        (locate (some db) ip).2 = [⟨"location", "country", "unknown"⟩])
    ∧ (∀ msg, db ip = .databaseError msg → (locate (some db) ip).2 = []) := by
  refine ⟨rfl, ?_, ?_, ?_⟩
  · intro countryInfo h
    simp [locate, h]
  · intro msg h
    simp [locate, h]
  · intro msg h
    simp [locate, h]

theorem claim_C7_witness :
    (locate (some fun _ => MaxMindResult.found (some ⟨some ⟨some "US", none⟩⟩)) (mkV4 1 2 3 4)).2
        = [⟨"location", "country", "US"⟩]
    ∧ (locate (some fun _ => MaxMindResult.addressNotFound "x") (mkV4 1 2 3 4)).2
        = [⟨"location", "country", "unknown"⟩]
    ∧ (locate (some fun _ => MaxMindResult.databaseError "corrupt") (mkV4 1 2 3 4)).2 = [] :=
  ⟨(claim_C7 (fun _ => MaxMindResult.found (some ⟨some ⟨some "US", none⟩⟩)) (mkV4 1 2 3 4)).2.1
      (some ⟨some ⟨some "US", none⟩⟩) rfl,
   (claim_C7 (fun _ => MaxMindResult.addressNotFound "x") (mkV4 1 2 3 4)).2.2.1 "x" rfl,
   (claim_C7 (fun _ => MaxMindResult.databaseError "corrupt") (mkV4 1 2 3 4)).2.2.2 "corrupt" rfl⟩

/-! ### The keyed country endpoint (src/endpoints/country.rs, lines 62-137)

`get_country` first extracts the `key` query parameter with
`Query::<Params>::from_query(req.query_string())`; URL-decoding is a serde
collaborator, so the model takes the extraction result as `key : Option
String` (`none` covers both a missing `key` parameter and an unparseable
query). On extraction success it sends a `country` counter tagged
`api_key=<key>`, then checks the `DOWNSTREAM_KEY` regex
`^firefox-downstream-\w{1,40}$` and, only if it misses, consults the
allow-list (the lazily loaded `KEYS_HASHSET`; the poisoned-mutex arm cannot
occur in this sequential model). In every denial case it returns 401 with
body "Wrong key". On authorization it resolves the client IP (an error
propagates as a `ClassifyError`, which actix renders as a 500 via
`ResponseError::error_response`, src/errors.rs), calls `locate`, and maps
the outcome: a lookup error becomes a propagated "Future failure" error, a
missing country is a 404 with `COUNTRY_NOT_FOUND_RESPONSE`, and a found
country is a 200 (with the no-cache header) whose `country_code` is the ISO
code or "" and whose `country_name` indexes the names map at "en" — a panic
when the map is present without an "en" entry — or "" when the record has no
names map. -/

structure CountryNotFoundErrorBody where
  domain : String
  reason : String
  message : String
deriving DecidableEq, Repr

structure CountryNotFoundResponseBody where
  errors : List CountryNotFoundErrorBody
  code : Int
  message : String
deriving DecidableEq, Repr

def COUNTRY_NOT_FOUND_RESPONSE : CountryNotFoundResponseBody :=
  { code := 404
    message := "Not found"
    errors := [{ domain := "geolocation", reason := "notFound", message := "Not found" }] }

inductive Body where
  | text (s : String)
  | notFoundJson (payload : CountryNotFoundResponseBody)
  | countryJson (country_code : String) (country_name : String)
  | classificationJson (country : Option String)
  | errorJson (message : String)
deriving DecidableEq, Repr

/-- Outcome of a handler: a response with a status, a flag for the no-cache
`Cache-Control` header, and a body; a propagated `ClassifyError` (rendered
500 by the framework); or a request-thread panic. -/
inductive HResult where
  | resp (status : Nat) (noCacheHeader : Bool) (body : Body)
  | err (message : String)
  | panicked
deriving DecidableEq, Repr

/-- ASCII reading of the regex word class `\w` (the claims only involve
ASCII keys). -/
def isWordChar (c : Char) : Bool :=
  c.isAlphanum || c == '_'

/-- The `DOWNSTREAM_KEY` regex `^firefox-downstream-\w{1,40}$`. -/
def downstreamKeyMatches (s : String) : Bool :=
  let pre := "firefox-downstream-".toList
  let cs := s.toList
  pre.isPrefixOf cs &&
    (let suffix := cs.drop pre.length
     decide (1 ≤ suffix.length) && decide (suffix.length ≤ 40) && suffix.all isWordChar)

/-- `BTreeMap` indexing used for `x["en"]`: the value at the key, when
present. -/
def lookupName (names : List (String × String)) (key : String) : Option String :=
  (names.find? (fun p => p.1 == key)).map (fun p => p.2)

/-- The 200/panic tail of `get_country`'s success arm: `country_code` is
`iso_code` or "", `country_name` indexes `names["en"]` (a panic when absent)
or is "" when there is no names map. -/
def render_country (country : CountryModel) : HResult :=
  match country.names with
  | none => .resp 200 true (.countryJson (country.iso_code.getD "") "")
  | some names =>
    match lookupName names "en" with
    | some nm => .resp 200 true (.countryJson (country.iso_code.getD "") nm)
    | none => .panicked

def get_country (api_keys : List String) (key : Option String)
    (trusted_proxy_list : List IpNet) (trace : List IpAddr)
    (reader : Option (IpAddr → MaxMindResult)) : HResult × List Metric :=
  match key with
  | none => (.resp 401 false (.text "Wrong key"), [])
  | some k =>
    if !downstreamKeyMatches k && !api_keys.contains k then
      (.resp 401 false (.text "Wrong key"), [⟨"country", "api_key", k⟩])
    else
      match client_ip trusted_proxy_list trace with
      | .error e => (.err e, [⟨"country", "api_key", k⟩])
      | .ok ip =>
        match (locate reader ip).1 with
        | .error e =>
            (.err ("Future failure: " ++ e), ⟨"country", "api_key", k⟩ :: (locate reader ip).2)
        | .ok location =>
          match location.bind CountryRecord.country with
          | none =>
              (.resp 404 false (.notFoundJson COUNTRY_NOT_FOUND_RESPONSE),
               ⟨"country", "api_key", k⟩ :: (locate reader ip).2)
          | some country =>
              (render_country country, ⟨"country", "api_key", k⟩ :: (locate reader ip).2)

/-! ### The unauthenticated classify endpoint (src/endpoints/classify.rs)

`classify_client` resolves the client IP (an error propagates), asks the
geoip actor for the country (the actor mailbox is plumbing; `geo` is the
inner `Result<Option<Country>, ClassifyError>`), and serializes the
classification: the `country` JSON field is the record's ISO code, or null.
A lookup error becomes a 200-builder downgraded to a 500 with an error
body. -/

/-- The `country_iso_code` serde serializer: the ISO code string, or the
JSON null (`none`). -/
def country_iso_code (country_info : Option CountryRecord) : Option String :=
  (country_info.bind CountryRecord.country).bind CountryModel.iso_code

def classify_client (trusted_proxy_list : List IpNet) (trace : List IpAddr)
    (geo : IpAddr → Except String (Option CountryRecord)) : HResult :=
  match client_ip trusted_proxy_list trace with
  | .error e => .err e
  | .ok ip =>
    match geo ip with
    | .ok country => .resp 200 true (.classificationJson (country_iso_code country))
    | .error e => .resp 500 true (.errorJson e)

/-- Spec-side authorization predicate (from the spec's words): a key passes
when it matches the reserved downstream pattern or is in the allow-list; a
missing key never passes. -/
def authorize_spec (api_keys : List String) (key : Option String) : Bool :=
  match key with
  | none => false
  | some k => downstreamKeyMatches k || api_keys.contains k

theorem get_country_no_wrong_key (api_keys : List String) (k : String)
    (trusted : List IpNet) (trace : List IpAddr)
    (reader : Option (IpAddr → MaxMindResult))
    (hd : (!downstreamKeyMatches k && !api_keys.contains k) = false) :
    (get_country api_keys (some k) trusted trace reader).1
      ≠ .resp 401 false (.text "Wrong key") := by
  simp only [get_country, hd, Bool.false_eq_true, if_false]
  cases hc : client_ip trusted trace with
  | error e => simp
  | ok ip =>
    cases hl : (locate reader ip).1 with
    | error e => simp [hl]
    | ok location =>
      cases hb : location.bind CountryRecord.country with
      | none => simp [hl, hb]
      | some country =>
        cases hn : country.names with
        | none => simp [hl, hb, render_country, hn]
        | some names =>
          cases he : lookupName names "en" <;>
            simp [hl, hb, render_country, hn, he]

/-- Claim C4: the keyed endpoint denies with a 401 "Wrong key" response
exactly when the supplied key neither matches the reserved
`firefox-downstream-` pattern nor belongs to the allow-list (a missing or
unparseable key always denies); the pattern examples from the spec evaluate
as claimed, and every denial cause produces the very same response. -/
theorem claim_C4 :
    (∀ (api_keys : List String) (key : Option String) (trusted : List IpNet)
        (trace : List IpAddr) (reader : Option (IpAddr → MaxMindResult)),
      ((get_country api_keys key trusted trace reader).1 = .resp 401 false (.text "Wrong key")
        ↔ authorize_spec api_keys key = false))
    ∧ downstreamKeyMatches "firefox-downstream-abc_123" = true
    ∧ downstreamKeyMatches "firefox-downstream-a-b" = false := by
  refine ⟨?_, by decide, by decide⟩
  intro api_keys key trusted trace reader
  match key with
  | none => simp [get_country, authorize_spec]
  | some k =>
    by_cases hd : (!downstreamKeyMatches k && !api_keys.contains k) = true
    · have h1 : downstreamKeyMatches k = false := by
        revert hd
        cases downstreamKeyMatches k <;> cases api_keys.contains k <;> simp
      have h2 : api_keys.contains k = false := by
        revert hd
        cases downstreamKeyMatches k <;> cases api_keys.contains k <;> simp
      have h2m : k ∉ api_keys := by simpa using h2
      constructor
      · intro _
        simp [authorize_spec, h1, h2m]
      · intro _
        simp [get_country, h1, h2m]
    · have hd2 : (!downstreamKeyMatches k && !api_keys.contains k) = false := by
        revert hd
        cases (!downstreamKeyMatches k && !api_keys.contains k) <;> simp
      constructor
      · intro habs
        exact absurd habs (get_country_no_wrong_key api_keys k trusted trace reader hd2)
      · intro hauth
        exfalso
        simp only [authorize_spec] at hauth
        revert hd2 hauth
        cases downstreamKeyMatches k <;> cases api_keys.contains k <;> simp

/-- Unfolding of `get_country` on an authorized key past the client-IP
resolution: the response is determined by the lookup result. -/
theorem get_country_authorized (api_keys : List String) (k : String)
    (trusted : List IpNet) (trace : List IpAddr)
    (reader : Option (IpAddr → MaxMindResult)) (ip : IpAddr)
    (hauth : downstreamKeyMatches k = true ∨ api_keys.contains k = true)
    (hip : client_ip trusted trace = .ok ip) :
    get_country api_keys (some k) trusted trace reader =
      (match (locate reader ip).1 with
       | .error e =>
           (.err ("Future failure: " ++ e), ⟨"country", "api_key", k⟩ :: (locate reader ip).2)
       | .ok location =>
         match location.bind CountryRecord.country with
         | none =>
             (.resp 404 false (.notFoundJson COUNTRY_NOT_FOUND_RESPONSE),
              ⟨"country", "api_key", k⟩ :: (locate reader ip).2)
         | some country =>
             (render_country country, ⟨"country", "api_key", k⟩ :: (locate reader ip).2)) := by
  have hd : (!downstreamKeyMatches k && !api_keys.contains k) = false := by
    rcases hauth with h | h
    · simp [h]
    · have hmem : k ∈ api_keys := by simpa using h
      simp [hmem]
  simp only [get_country, hd, Bool.false_eq_true, if_false, hip]

/-- Claim C6: when the client IP resolves and the lookup yields no country,
the keyed endpoint responds 404 with exactly the structured
`COUNTRY_NOT_FOUND_RESPONSE` body, while the unauthenticated classify
endpoint responds 200 with a null `country` field — never an error. -/
theorem claim_C6 (api_keys : List String) (k : String) (trusted : List IpNet)
    (trace : List IpAddr) (reader : Option (IpAddr → MaxMindResult)) (ip : IpAddr)
    (location : Option CountryRecord)
    (geo : IpAddr → Except String (Option CountryRecord))
    (hauth : downstreamKeyMatches k = true ∨ api_keys.contains k = true)
    (hip : client_ip trusted trace = .ok ip)
    (hloc : (locate reader ip).1 = .ok location)
    (hnone : location.bind CountryRecord.country = none)
    (hgeo : geo ip = .ok location) :
    (get_country api_keys (some k) trusted trace reader).1
        = .resp 404 false (.notFoundJson
            { errors := [{ domain := "geolocation", reason := "notFound",
                           message := "Not found" }],
              code := 404, message := "Not found" })
    ∧ classify_client trusted trace geo = .resp 200 true (.classificationJson none) := by
  constructor
  · rw [get_country_authorized api_keys k trusted trace reader ip hauth hip]
    simp [hloc, hnone, COUNTRY_NOT_FOUND_RESPONSE]
  · simp only [classify_client, hip, hgeo]
    have : country_iso_code location = none := by
      simp [country_iso_code, hnone]
    rw [this]

theorem claim_C6_witness :
    (get_country [] (some "firefox-downstream-a") [] [mkV4 1 1 1 1]
        (some fun _ => MaxMindResult.found none)).1
      = .resp 404 false (.notFoundJson
          { errors := [{ domain := "geolocation", reason := "notFound",
                         message := "Not found" }],
            code := 404, message := "Not found" })
    ∧ classify_client [] [mkV4 1 1 1 1] (fun _ => .ok none)
        = .resp 200 true (.classificationJson none) :=
  claim_C6 [] "firefox-downstream-a" [] [mkV4 1 1 1 1]
    (some fun _ => MaxMindResult.found none) (mkV4 1 1 1 1) none
    (fun _ => .ok none) (Or.inl (by decide)) rfl rfl rfl rfl

/-- Counterexample to claim C8 as stated: when the key parameter is missing
or the query is unparseable, the endpoint emits no counter metric at all —
in particular, not one tagged with an "invalid-key" sentinel. -/
theorem claim_C8_counterexample :
    ¬ ((get_country [] none [] [] none).2.length = 1) := by
  decide

/-- Every metric emitted by `locate` is the `location` counter. -/
theorem locate_metric_names (reader : Option (IpAddr → MaxMindResult)) (ip : IpAddr) :
    ∀ m ∈ (locate reader ip).2, m.name = "location" := by
  cases reader with
  | none => simp [locate]
  | some db =>
    cases h : db ip <;> simp [locate, h]

/-- Claim C8 (amended): whenever a key was supplied, the endpoint emits
exactly one `country` counter tagged with the literal key value — whether the
request is ultimately authorized or denied; when the key parameter is missing
or the query is unparseable, no metric is emitted. -/
theorem claim_C8 :
    (∀ (api_keys : List String) (k : String) (trusted : List IpNet)
        (trace : List IpAddr) (reader : Option (IpAddr → MaxMindResult)),
      ((get_country api_keys (some k) trusted trace reader).2.filter
          (fun m => m.name == "country"))
        = [⟨"country", "api_key", k⟩])
    ∧ (∀ (api_keys : List String) (trusted : List IpNet) (trace : List IpAddr)
        (reader : Option (IpAddr → MaxMindResult)),
      (get_country api_keys none trusted trace reader).2 = []) := by
  constructor
  · intro api_keys k trusted trace reader
    have hfilterLoc : ∀ ip, ((locate reader ip).2.filter (fun m => m.name == "country")) = [] := by
      intro ip
      rw [List.filter_eq_nil_iff]
      intro m hm
      rw [locate_metric_names reader ip m hm]
      decide
    simp only [get_country]
    by_cases hd : (!downstreamKeyMatches k && !api_keys.contains k) = true
    · have h1 : downstreamKeyMatches k = false := by
        revert hd
        cases downstreamKeyMatches k <;> cases api_keys.contains k <;> simp
      have h2m : k ∉ api_keys := by
        have h2 : api_keys.contains k = false := by
          revert hd
          cases downstreamKeyMatches k <;> cases api_keys.contains k <;> simp
        simpa using h2
      simp [h1, h2m]
    · have hd2 : (!downstreamKeyMatches k && !api_keys.contains k) = false := by
        revert hd
        cases (!downstreamKeyMatches k && !api_keys.contains k) <;> simp
      simp only [hd2, Bool.false_eq_true, if_false]
      cases hc : client_ip trusted trace with
      | error e => simp
      | ok ip =>
        cases hl : (locate reader ip).1 with
        | error e => simp [hl, List.filter_cons, hfilterLoc ip]
        | ok location =>
          cases hb : location.bind CountryRecord.country with
          | none => simp [hl, hb, List.filter_cons, hfilterLoc ip]
          | some country => simp [hl, hb, List.filter_cons, hfilterLoc ip]
  · intro api_keys trusted trace reader
    rfl

/-- Claim C10: on the keyed endpoint's success path, a present names map is
indexed at "en" with no presence check — the 200 response is built (and the
request does not panic) exactly when every present names map has an "en"
entry — and a found record whose country sub-field is absent goes to the 404
not-found outcome instead of a success response. -/
theorem claim_C10 (api_keys : List String) (k : String) (trusted : List IpNet)
    (trace : List IpAddr) (reader : Option (IpAddr → MaxMindResult)) (ip : IpAddr)
    (rec : CountryRecord)
    (hauth : downstreamKeyMatches k = true ∨ api_keys.contains k = true)
    (hip : client_ip trusted trace = .ok ip)
    (hloc : (locate reader ip).1 = .ok (some rec)) :
    (∀ c names, rec.country = some c → c.names = some names →
        lookupName names "en" = none →
        (get_country api_keys (some k) trusted trace reader).1 = .panicked)
    ∧ (∀ c names nm, rec.country = some c → c.names = some names →
        lookupName names "en" = some nm →
        (get_country api_keys (some k) trusted trace reader).1
          = .resp 200 true (.countryJson (c.iso_code.getD "") nm))
    ∧ (∀ c, rec.country = some c → c.names = none →
        (get_country api_keys (some k) trusted trace reader).1
          = .resp 200 true (.countryJson (c.iso_code.getD "") ""))
    ∧ (rec.country = none →
        (get_country api_keys (some k) trusted trace reader).1
          = .resp 404 false (.notFoundJson COUNTRY_NOT_FOUND_RESPONSE)) := by
  have hgc := get_country_authorized api_keys k trusted trace reader ip hauth hip
  refine ⟨?_, ?_, ?_, ?_⟩
  · intro c names hc hn he
    rw [hgc]
    simp [hloc, hc, render_country, hn, he]
  · intro c names nm hc hn he
    rw [hgc]
    simp [hloc, hc, render_country, hn, he]
  · intro c hc hn
    rw [hgc]
    simp [hloc, hc, render_country, hn]
  · intro hc
    rw [hgc]
    simp [hloc, hc]

theorem claim_C10_witness :
    (get_country [] (some "firefox-downstream-a") [] [mkV4 1 1 1 1]
        (some fun _ => MaxMindResult.found
          (some ⟨some ⟨some "US", some [("de", "USA")]⟩⟩))).1 = .panicked :=
  (claim_C10 [] "firefox-downstream-a" [] [mkV4 1 1 1 1]
      (some fun _ => MaxMindResult.found (some ⟨some ⟨some "US", some [("de", "USA")]⟩⟩))
      (mkV4 1 1 1 1) ⟨some ⟨some "US", some [("de", "USA")]⟩⟩
      (Or.inl (by decide)) rfl rfl).1
    ⟨some "US", some [("de", "USA")]⟩ [("de", "USA")] rfl rfl (by decide)

/-! ### The API-key allow-list loader (src/keys.rs, lines 7-31)

```rust
pub fn load(file_path: PathBuf, app_log: Logger) -> HashSet<String> {
    let mut keys: HashSet<String> = HashSet::new();
    match read_to_string(file_path) {
        Ok(contents) => match from_str::<Value>(&contents) {
            Ok(json_value) => {
                if let Some(array) = json_value.as_array() {
                    for item in array {
                        if let Value::String(string) = &item {
                            keys.insert(string.to_string());
                        }
                    }
                }
            }
            Err(err) => { slog::error!(app_log, "Error parsing api keys file. {}", err) }
        },
        Err(err) => { slog::error!(app_log, "Error reading api keys file. {}", err) }
    }
    keys
}
```

File I/O and serde are collaborators: the model takes the result of
`read_to_string` and the JSON parser as inputs. The `HashSet` is modelled as
a duplicate-free list built by `hashset_insert`; logging has no observable
effect on the result. -/

inductive Json where
  | null
  | bool (b : Bool)
  | num (n : Int)
  | str (s : String)
  | arr (items : List Json)
  | obj (fields : List (String × Json))

/-- `HashSet::insert`: add the string unless it is already present. -/
def hashset_insert (keys : List String) (s : String) : List String :=
  if keys.contains s then keys else keys ++ [s]

def keys_load (readResult : Except String String)
    (parseJson : String → Except String Json) : List String :=
  match readResult with
  | .error _ => []
  | .ok contents =>
    match parseJson contents with
    | .error _ => []
    | .ok json_value =>
      match json_value with
      | .arr array =>
          array.foldl (fun keys item =>
            match item with
            | .str s => hashset_insert keys s
            | _ => keys) []
      | _ => []

theorem mem_hashset_insert (keys : List String) (t s : String) :
    s ∈ hashset_insert keys t ↔ s ∈ keys ∨ s = t := by
  unfold hashset_insert
  by_cases h : keys.contains t = true
  · have hmem : t ∈ keys := by simpa using h
    simp only [h, if_true]
    constructor
    · exact Or.inl
    · rintro (hs | rfl)
      · exact hs
      · exact hmem
  · have hnot : t ∉ keys := by
      have h2 : keys.contains t = false := by
        revert h
        cases keys.contains t <;> simp
      simpa using h2
    simp [hnot]

theorem mem_keys_fold (items : List Json) (acc : List String) (s : String) :
    s ∈ items.foldl (fun keys item =>
        match item with
        | Json.str t => hashset_insert keys t
        | _ => keys) acc
      ↔ s ∈ acc ∨ Json.str s ∈ items := by
  induction items generalizing acc with
  | nil => simp
  | cons it rest ih =>
    cases it with
    | str t =>
      simp only [List.foldl_cons, ih, mem_hashset_insert, List.mem_cons]
      constructor
      · rintro ((hs | rfl) | hr)
        · exact Or.inl hs
        · exact Or.inr (Or.inl rfl)
        · exact Or.inr (Or.inr hr)
      · rintro (hs | hst | hr)
        · exact Or.inl (Or.inl hs)
        · exact Or.inl (Or.inr (by injection hst))
        · exact Or.inr hr
    | null => simp [List.foldl_cons, ih]
    | bool b => simp [List.foldl_cons, ih]
    | num n => simp [List.foldl_cons, ih]
    | arr xs => simp [List.foldl_cons, ih]
    | obj fs => simp [List.foldl_cons, ih]

/-- Claim C9: loading the allow-list never fails — an unreadable file or
invalid JSON yields the empty set (the error is only logged), a top-level
JSON array contributes exactly its string elements, and a non-array document
contributes nothing. -/
theorem claim_C9 :
    (∀ (msg : String) (parseJson : String → Except String Json),
        keys_load (.error msg) parseJson = [])
    ∧ (∀ (contents msg : String) (parseJson : String → Except String Json),
        parseJson contents = .error msg → keys_load (.ok contents) parseJson = [])
    ∧ (∀ (contents : String) (parseJson : String → Except String Json)
        (items : List Json), parseJson contents = .ok (.arr items) →
        ∀ s, s ∈ keys_load (.ok contents) parseJson ↔ Json.str s ∈ items)
    ∧ (∀ (contents : String) (parseJson : String → Except String Json) (v : Json),
        parseJson contents = .ok v → (∀ items, v ≠ .arr items) →
        keys_load (.ok contents) parseJson = []) := by
  refine ⟨fun _ _ => rfl, ?_, ?_, ?_⟩
  · intro contents msg parseJson h
    simp [keys_load, h]
  · intro contents parseJson items h s
    simp only [keys_load, h]
    simp [mem_keys_fold]
  · intro contents parseJson v h hv
    cases v with
    | arr items => exact absurd rfl (hv items)
    | null => simp [keys_load, h]
    | bool b => simp [keys_load, h]
    | num n => simp [keys_load, h]
    | str s => simp [keys_load, h]
    | obj fs => simp [keys_load, h]

theorem claim_C9_witness :
    keys_load (.error "No such file or directory") (fun _ => .ok (.arr [])) = []
    ∧ ("foo" ∈ keys_load (.ok "[\"foo\", 3]")
        (fun _ => .ok (.arr [.str "foo", .num 3])))
    ∧ keys_load (.ok "{}") (fun _ => .ok (.obj [])) = [] :=
  ⟨claim_C9.1 "No such file or directory" (fun _ => .ok (.arr [])),
   (claim_C9.2.2.1 "[\"foo\", 3]" (fun _ => .ok (.arr [.str "foo", .num 3]))
      [.str "foo", .num 3] rfl "foo").mpr (by simp),
   claim_C9.2.2.2 "{}" (fun _ => .ok (.obj [])) (.obj []) rfl (fun items h => by injection h)⟩

end ClassifyClient
